import Mathlib

/-!
Shallow embedding of the Spark translation frontend.

The embedded code is the two UI surfaces of the repository:
the main window (`src/App.tsx`) and the quick popup (`Popup.tsx`).
React `useState` cells become fields of explicit state records
(`AppState`, `PopupState`), event handlers become pure functions from a
state (plus the delivered payload, and the settlement of an awaited
`invoke` promise where one occurs) to a list of emitted effects
(`Action`) and a successor state, and the single `setTimeout`-based
idle-unload timer of the main window becomes an `Option Nat` field
holding the remaining milliseconds of the pending timeout (a cleared or
already-fired timeout is `none`; `clearTimeout` on a dead timer id is a
no-op, so this abstraction loses nothing observable).
-/

namespace Spark

/-- Model of JavaScript `String.prototype.trim`: strip whitespace from
both ends of the string (the ASCII whitespace characters `Char.isWhitespace`
recognises; the claims only exercise these). -/
def jsTrim (s : String) : String :=
  String.mk (((s.data.dropWhile Char.isWhitespace).reverse.dropWhile
    Char.isWhitespace).reverse)

/-- The placeholder the main window shows while a translation streams
(`setTranslatedText("翻訳中...")` in `handleTranslate`). -/
def translatingPlaceholder : String := "翻訳中..."

/-- The fallback text the main window shows when a session finishes with no
output (`App.tsx`, the `is_last` branch of the translation-event listener). -/
def translationFailedMessage : String :=
  "翻訳に失敗しました。バックエンドのログを確認してください。"

/-- Payload of a `translation-event` / `translation-event-popup` message:
`{ chunk: string; is_last: boolean }`. -/
structure Chunk where
  chunk : String
  is_last : Bool
  deriving DecidableEq

/-- Observable effects a handler performs: Tauri `invoke` calls, `emit`
broadcasts, and the `setTimeout`/`clearTimeout` calls on the idle-unload
timer. -/
inductive Action where
  | invokeTranslate (text sourceLang targetLang modelId : String)
  | invokeCancel
  | invokeUnload
  | emitThemeChanged (payload : String)
  | armUnloadTimer (ms : Nat)
  | clearUnloadTimer
  deriving DecidableEq

/-- The main window's component state (`App.tsx`): the `useState` cells the
claims mention, plus the idle-unload timer ref (`unloadTimerRef`) modelled as
the remaining milliseconds of the pending timeout. -/
structure AppState where
  inputText : String
  translatedText : String
  isTranslating : Bool
  modelLoaded : Bool
  modelId : String
  sourceLang : String
  targetLang : String
  unloadTimer : Option Nat
  deriving DecidableEq

/-- Text evolution of one delivered chunk in the main window
(`App.tsx` lines 102-107): a non-empty fragment replaces the placeholder,
otherwise appends; an empty fragment (JS falsy) leaves the text alone. -/
def chunkText (prev : String) (c : Chunk) : String :=
  if c.chunk ≠ "" then
    (if prev = translatingPlaceholder then c.chunk else prev ++ c.chunk)
  else prev

/-- `resetUnloadTimer` (`App.tsx` lines 141-149): clear any pending timeout,
then schedule `unload_model` after 30000 ms. -/
def resetUnloadTimer (s : AppState) : List Action × AppState :=
  ((if s.unloadTimer.isSome then [Action.clearUnloadTimer] else []) ++
      [Action.armUnloadTimer 30000],
    { s with unloadTimer := some 30000 })

/-- The main window's `translation-event` listener (`App.tsx` lines 98-120):
append/replace the text for a non-empty fragment; on `is_last` stop
translating, substitute the failure message if no output ever arrived, and
restart the idle-unload timer. -/
def onTranslationEvent (s : AppState) (e : Chunk) : List Action × AppState :=
  let t1 := chunkText s.translatedText e
  if e.is_last then
    let t2 := if t1 = translatingPlaceholder then translationFailedMessage else t1
    resetUnloadTimer { s with translatedText := t2, isTranslating := false }
  else
    ([], { s with translatedText := t1 })

/-- `handleTranslate` (`App.tsx` lines 151-177), with the settlement of the
awaited `invoke("translate", ...)` promise passed in as `r`. Empty trimmed
input returns immediately; otherwise the pending timer is cleared, the
translating state and placeholder are set and the backend is invoked; a
rejection sets the error text, ends the translating state and re-arms the
idle-unload timer. -/
def handleTranslate (s : AppState) (r : Except String Unit) :
    List Action × AppState :=
  if jsTrim s.inputText = "" then ([], s)
  else
    let clearActs :=
      if s.unloadTimer.isSome then [Action.clearUnloadTimer] else []
    let s1 : AppState :=
      { s with unloadTimer := none, isTranslating := true, modelLoaded := true,
               translatedText := translatingPlaceholder }
    let invokeAct :=
      Action.invokeTranslate s.inputText s.sourceLang s.targetLang s.modelId
    match r with
    | Except.ok _ => (clearActs ++ [invokeAct], s1)
    | Except.error err =>
        let after := resetUnloadTimer
          { s1 with translatedText := "エラー: " ++ err, isTranslating := false }
        (clearActs ++ [invokeAct] ++ after.1, after.2)

/-- `handleCancel` (`App.tsx` lines 179-191): a no-op unless a translation is
running; while running it invokes `cancel_translation` and deliberately does
not change `isTranslating` (the code waits for the backend's final chunk);
a rejection of the cancel invoke only logs, so the state is unchanged either
way. -/
def handleCancel (s : AppState) : List Action × AppState :=
  if s.isTranslating then ([Action.invokeCancel], s) else ([], s)

/-- The fixed model-mode list (`App.tsx` `cycleMode`, and the two dropdown
menus). -/
def modes : List String := ["nano", "light", "balanced", "high"]

/-- JavaScript `Array.prototype.indexOf` on a string array: index of the
first occurrence, `-1` when absent. -/
def jsIndexOf : List String → String → Int
  | [], _ => -1
  | a :: rest, x =>
      if a = x then 0
      else if jsIndexOf rest x = -1 then -1 else jsIndexOf rest x + 1

/-- `cycleMode` (`App.tsx` lines 202-208 and `Popup.tsx`): step to the next
entry of `modes`, wrapping around (`(indexOf + 1) % modes.length`). -/
def cycleMode (modelId : String) : String :=
  let currentIndex := jsIndexOf modes modelId
  let nextIndex := (currentIndex + 1) % (modes.length : Int)
  modes.getD nextIndex.toNat ""

/-- The popup's `modelId` initializer (`Popup.tsx` lines 19-27): restore the
stored default model only when it is a member of the fixed mode set (JS
truthiness: the empty string is also rejected), else fall back to
`"balanced"`. -/
def initPopupModelId (saved : Option String) : String :=
  match saved with
  | some s => if s ≠ "" ∧ s ∈ modes then s else "balanced"
  | none => "balanced"

/-- The `theme` effect of the main window (`App.tsx` lines 52-61): whenever
the theme value changes it is published on the `theme-changed` topic (the
DOM class toggle and the localStorage write are outside the state model). -/
def themeEffect (theme : String) : List Action :=
  [Action.emitThemeChanged theme]

/-- The main window's Ctrl+wheel font-size update before clamping
(`App.tsx` lines 80-91): `deltaY > 0` shrinks by 2, otherwise grow by 2. -/
def mainWheelRaw (prev deltaY : Int) : Int :=
  prev + (if deltaY > 0 then -2 else 2)

/-- The main window's Ctrl+wheel handler result:
`Math.min(Math.max(prev + delta, 12), 72)`. -/
def mainHandleWheel (prev deltaY : Int) : Int :=
  min (max (mainWheelRaw prev deltaY) 12) 72

/-- The popup's Ctrl+wheel font-size update before clamping (`Popup.tsx`
lines 148-160): `prev - Math.sign(deltaY) * 2`. -/
def popupWheelRaw (prev deltaY : Int) : Int :=
  prev - Int.sign deltaY * 2

/-- The popup's Ctrl+wheel handler result:
`Math.max(10, Math.min(newSize, 48))`. -/
def popupHandleWheel (prev deltaY : Int) : Int :=
  max 10 (min (popupWheelRaw prev deltaY) 48)

/-- The popup's component state (`Popup.tsx`): the `useState` cells the
claims mention. The popup has no idle-unload timer. -/
structure PopupState where
  text : String
  translation : String
  loading : Bool
  error : Option String
  sourceLang : String
  targetLang : String
  modelId : String
  theme : String
  deriving DecidableEq

/-- The popup's `translation-event-popup` listener (`Popup.tsx` lines 60-67):
append a non-empty fragment (no placeholder logic), and stop loading on
`is_last`. -/
def onTranslationEventPopup (ps : PopupState) (e : Chunk) : PopupState :=
  let ps1 :=
    if e.chunk ≠ "" then { ps with translation := ps.translation ++ e.chunk }
    else ps
  if e.is_last then { ps1 with loading := false } else ps1

/-- The popup's `theme-changed` listener (`Popup.tsx` lines 75-83): adopt the
published payload as the popup's theme. -/
def onThemeChangedPopup (ps : PopupState) (payload : String) : PopupState :=
  { ps with theme := payload }

/-- The popup's `translateText` (`Popup.tsx` lines 162-177), with the
settlement of the awaited `invoke("translate", ...)` passed in as `r`:
empty trimmed input returns immediately; a rejection records the error and
stops loading. No timer is touched — the popup has none. -/
def translateText (ps : PopupState) (sourceText src tgt model : String)
    (r : Except String Unit) : List Action × PopupState :=
  if jsTrim sourceText = "" then ([], ps)
  else
    match r with
    | Except.ok _ =>
        ([Action.invokeTranslate sourceText src tgt model], ps)
    | Except.error err =>
        ([Action.invokeTranslate sourceText src tgt model],
          { ps with error := some err, loading := false })

/-- The popup's `cycleMode` (`Popup.tsx` lines 179-193): advance the mode and,
when text is present, clear the shown translation, set loading and
re-translate with the new mode. -/
def popupCycleMode (ps : PopupState) (r : Except String Unit) :
    List Action × PopupState :=
  let nextMode := cycleMode ps.modelId
  let ps1 := { ps with modelId := nextMode }
  if ps.text ≠ "" then
    let ps2 := { ps1 with translation := "", loading := true }
    translateText ps2 ps.text ps.sourceLang ps.targetLang nextMode r
  else ([], ps1)

/-- The ways the `modelId` cell is ever written after initialisation: the
Ctrl+M cycle, or a click on one of the four fixed dropdown entries (both
surfaces render the same four ids). -/
inductive ModelMenuEv where
  | cycle
  | select (i : Fin 4)

/-- One `modelId` update (`setModelId(nextMode)` / `setModelId(option.id)`). -/
def modelIdStep (m : String) : ModelMenuEv → String
  | ModelMenuEv.cycle => cycleMode m
  | ModelMenuEv.select i => modes.getD i.val ""

/-- The translate/stop floating button of the main window (`App.tsx` lines
448-461): while translating it is a stop button (`handleCancel`), otherwise
it submits (`handleTranslate`). -/
def translateStopClick (s : AppState) (r : Except String Unit) :
    List Action × AppState :=
  if s.isTranslating then handleCancel s else handleTranslate s r

/-- Events driving the main window between renders: a delivered stream chunk,
a submission (Ctrl+Enter or the idle button, with the `invoke` settlement),
a cancel click, editing the input, and the passage of `d` milliseconds of
wall-clock time (which fires the pending idle-unload timeout when it
expires). -/
inductive MainEv where
  | deliverChunk (c : Chunk)
  | submit (r : Except String Unit)
  | cancelClick
  | setInput (t : String)
  | elapse (d : Nat)

/-- Main-window transition: dispatch an event to the code that handles it.
`elapse` is the `setTimeout` semantics: the pending timeout fires
(invoking `unload_model`) exactly when its remaining delay is exhausted. -/
def mainStep (s : AppState) : MainEv → List Action × AppState
  | MainEv.deliverChunk c => onTranslationEvent s c
  | MainEv.submit r => handleTranslate s r
  | MainEv.cancelClick => handleCancel s
  | MainEv.setInput t => ([], { s with inputText := t })
  | MainEv.elapse d =>
      match s.unloadTimer with
      | none => ([], s)
      | some rem =>
          if rem ≤ d then ([Action.invokeUnload], { s with unloadTimer := none })
          else ([], { s with unloadTimer := some (rem - d) })

/-- Run a sequence of main-window events, accumulating the emitted actions. -/
def runMain (s : AppState) : List MainEv → List Action × AppState
  | [] => ([], s)
  | e :: rest =>
      let st1 := mainStep s e
      let rest1 := runMain st1.2 rest
      (st1.1 ++ rest1.1, rest1.2)

/-- An event that ends a session in the main window: arrival of a final
chunk, or a submission whose `invoke` rejects (its catch block). These are
exactly the events that re-arm the idle-unload timer. -/
def sessionEnds : MainEv → Bool
  | MainEv.deliverChunk c => c.is_last
  | MainEv.submit (Except.error _) => true
  | _ => false

/-- Fold the main window's chunk handler over a delivered chunk sequence. -/
def processChunks (s : AppState) (cs : List Chunk) : AppState :=
  cs.foldl (fun st c => (onTranslationEvent st c).2) s

/-- Concatenation, in delivery order, of the fragments of a chunk sequence
(empty fragments contribute nothing, so this is also the concatenation of
the non-empty fragments), starting from accumulator `A`. -/
def concatFragsFrom (A : String) (cs : List Chunk) : String :=
  cs.foldl (fun acc c => acc ++ c.chunk) A

/-- Concatenation, in delivery order, of all (equivalently: all non-empty)
fragments of a chunk sequence. -/
def concatFrags (cs : List Chunk) : String := concatFragsFrom "" cs

end Spark

namespace Spark

/-! ### Shared helper lemmas -/

theorem append_ne_empty_left (s t : String) (h : s ≠ "") : s ++ t ≠ "" := by
  intro hc
  apply h
  have hd := congrArg String.data hc
  rw [String.data_append] at hd
  rcases List.append_eq_nil.mp hd with ⟨h1, _⟩
  cases s
  simp_all

theorem nil_mem_inits {α : Type} (l : List α) : ([] : List α) ∈ l.inits :=
  (List.mem_inits _ _).mpr ⟨l, rfl⟩

theorem cons_mem_inits {α : Type} (a : α) (p l : List α)
    (h : p ∈ l.inits) : (a :: p) ∈ (a :: l).inits := by
  obtain ⟨t, ht⟩ := (List.mem_inits _ _).mp h
  exact (List.mem_inits _ _).mpr ⟨t, by simp [ht]⟩

theorem self_mem_inits {α : Type} (l : List α) : l ∈ l.inits :=
  (List.mem_inits _ _).mpr ⟨[], by simp⟩

theorem left_mem_inits_append {α : Type} (p l r : List α)
    (h : p ∈ l.inits) : p ∈ (l ++ r).inits := by
  obtain ⟨t, ht⟩ := (List.mem_inits _ _).mp h
  exact (List.mem_inits _ _).mpr ⟨t ++ r, by rw [← List.append_assoc, ht]⟩

end Spark

namespace Spark

/-! ### Concrete states used to evaluate the embedded handlers -/

/-- A main-window state with a running session that has produced no output
yet (the placeholder is still displayed). -/
def busyState : AppState :=
  { inputText := "Hello", translatedText := translatingPlaceholder,
    isTranslating := true, modelLoaded := true, modelId := "balanced",
    sourceLang := "English", targetLang := "Japanese", unloadTimer := none }

/-- An idle main-window state with text in the input box. -/
def idleState : AppState :=
  { inputText := "Hello", translatedText := "", isTranslating := false,
    modelLoaded := false, modelId := "balanced", sourceLang := "English",
    targetLang := "Japanese", unloadTimer := none }

/-- A freshly opened popup waiting for its first chunk. -/
def popupStart : PopupState :=
  { text := "Hello", translation := "", loading := true, error := none,
    sourceLang := "English", targetLang := "Japanese", modelId := "balanced",
    theme := "dark" }

/-! ### C3 -/

/-- C3 counterexample: with a session already running
(`busyState.isTranslating = true`), calling `handleTranslate` directly (as the
textarea's Ctrl+Enter handler does) performs a second
`invoke("translate", ...)`: the emitted action list is exactly the second
pipeline invocation, and contains no rejection of any kind — the code has no
`SessionBusy` error at all. -/
theorem C3_counterexample :
    busyState.isTranslating = true
    ∧ (handleTranslate busyState (Except.ok ())).1 =
        [Action.invokeTranslate "Hello" "English" "Japanese" "balanced"] := by
  decide

/-- C3 amended: single-flight is enforced only by the UI affordance, not by
the submission code: while a session is running the translate/stop button
routes the click to `handleCancel`, which emits only `cancel_translation`
(never a `translate` invocation), so no second pipeline starts through the
button; `handleTranslate` itself performs no busy check and, when invoked
directly with non-empty input, does issue a second `translate` invocation
without any `SessionBusy` rejection. -/
theorem C3_amended (s : AppState) (r : Except String Unit)
    (hbusy : s.isTranslating = true) :
    translateStopClick s r = ([Action.invokeCancel], s)
    ∧ (∀ a ∈ (translateStopClick s r).1,
        ∀ text src tgt mid, a ≠ Action.invokeTranslate text src tgt mid)
    ∧ (jsTrim s.inputText ≠ "" →
        Action.invokeTranslate s.inputText s.sourceLang s.targetLang s.modelId
          ∈ (handleTranslate s r).1) := by
  refine ⟨?_, ?_, ?_⟩
  · simp [translateStopClick, handleCancel, hbusy]
  · intro a ha text src tgt mid
    simp [translateStopClick, handleCancel, hbusy] at ha
    simp [ha]
  · intro hin
    cases r <;> simp [handleTranslate, hin]

/-- C3 witness: the amended statement evaluated at `busyState`. -/
theorem C3_witness :
    translateStopClick busyState (Except.ok ()) =
        ([Action.invokeCancel], busyState)
    ∧ (∀ a ∈ (translateStopClick busyState (Except.ok ())).1,
        ∀ text src tgt mid, a ≠ Action.invokeTranslate text src tgt mid)
    ∧ (jsTrim busyState.inputText ≠ "" →
        Action.invokeTranslate busyState.inputText busyState.sourceLang
            busyState.targetLang busyState.modelId
          ∈ (handleTranslate busyState (Except.ok ())).1) :=
  C3_amended busyState (Except.ok ()) (by decide)

end Spark

namespace Spark

/-! ### C4 -/

/-- C4 counterexample: a popup-initiated run whose `translate` invocation
rejects terminates the session (`loading` becomes `false`, the error text is
recorded) but arms no idle-unload timer at all: the complete effect list of
the failing `translateText` run contains no timer-arming action, so the
claim's "the idle-unload timer is re-armed" fails for popup runs. -/
theorem C4_counterexample :
    ((translateText popupStart "Hello" "English" "Japanese" "balanced"
        (Except.error "boom")).1.all fun a =>
        match a with
        | Action.armUnloadTimer _ => false
        | _ => true) = true
    ∧ (translateText popupStart "Hello" "English" "Japanese" "balanced"
        (Except.error "boom")).2.loading = false
    ∧ (translateText popupStart "Hello" "English" "Japanese" "balanced"
        (Except.error "boom")).2.error = some "boom" := by
  decide

/-- C4 amended: in the main window a failed `translate` invocation terminates
the session exactly as claimed — `isTranslating` becomes `false`, the error
text is displayed and the 30000 ms idle-unload timer is re-armed; a failing
popup run also terminates (loading cleared, error shown) but arms no
idle-unload timer (the popup has none), so after a popup failure the model
stays resident until some main-window session ends. -/
theorem C4_amended (s : AppState) (ps : PopupState)
    (err txt src tgt model : String)
    (hin : jsTrim s.inputText ≠ "") (htxt : jsTrim txt ≠ "") :
    ((handleTranslate s (Except.error err)).2.isTranslating = false
      ∧ (handleTranslate s (Except.error err)).2.translatedText =
          "エラー: " ++ err
      ∧ (handleTranslate s (Except.error err)).2.unloadTimer = some 30000
      ∧ Action.armUnloadTimer 30000 ∈ (handleTranslate s (Except.error err)).1)
    ∧ ((translateText ps txt src tgt model (Except.error err)).2.loading = false
      ∧ (translateText ps txt src tgt model (Except.error err)).2.error =
          some err
      ∧ ((translateText ps txt src tgt model (Except.error err)).1.all fun a =>
          match a with
          | Action.armUnloadTimer _ => false
          | _ => true) = true) := by
  constructor
  · refine ⟨?_, ?_, ?_, ?_⟩ <;> simp [handleTranslate, resetUnloadTimer, hin]
  · refine ⟨?_, ?_, ?_⟩ <;> simp [translateText, htxt]

/-- C4 witness: the amended statement evaluated at concrete states. -/
theorem C4_witness :
    ((handleTranslate idleState (Except.error "boom")).2.isTranslating = false
      ∧ (handleTranslate idleState (Except.error "boom")).2.translatedText =
          "エラー: " ++ "boom"
      ∧ (handleTranslate idleState (Except.error "boom")).2.unloadTimer =
          some 30000
      ∧ Action.armUnloadTimer 30000 ∈
          (handleTranslate idleState (Except.error "boom")).1)
    ∧ ((translateText popupStart "Hi" "English" "Japanese" "balanced"
          (Except.error "boom")).2.loading = false
      ∧ (translateText popupStart "Hi" "English" "Japanese" "balanced"
          (Except.error "boom")).2.error = some "boom"
      ∧ ((translateText popupStart "Hi" "English" "Japanese" "balanced"
          (Except.error "boom")).1.all fun a =>
          match a with
          | Action.armUnloadTimer _ => false
          | _ => true) = true) :=
  C4_amended idleState popupStart "boom" "Hi" "English" "Japanese" "balanced"
    (by decide) (by decide)

end Spark

namespace Spark

/-! ### C5 -/

/-- Helper for C5: a run made of cancel clicks and non-final chunk deliveries
never leaves the translating state. -/
theorem runMain_keeps_translating (t : List MainEv) :
    ∀ s : AppState, s.isTranslating = true →
    (∀ e ∈ t, e = MainEv.cancelClick ∨
      ∃ c, e = MainEv.deliverChunk c ∧ c.is_last = false) →
    (runMain s t).2.isTranslating = true := by
  induction t with
  | nil => intro s hs _; exact hs
  | cons e rest ih =>
    intro s hs ht
    have he := ht e (List.mem_cons_self e rest)
    have hrest : ∀ e' ∈ rest, e' = MainEv.cancelClick ∨
        ∃ c, e' = MainEv.deliverChunk c ∧ c.is_last = false :=
      fun e' h' => ht e' (List.mem_cons_of_mem e h')
    rcases he with he | ⟨c, he, hc⟩
    · subst he
      simp only [runMain]
      exact ih _ (by simp [mainStep, handleCancel, hs]) hrest
    · subst he
      simp only [runMain]
      exact ih _ (by simp [mainStep, onTranslationEvent, hc, hs]) hrest

/-- C5: cancelling with no active session is a harmless no-op (no
`cancel_translation` invocation, state untouched); while a session runs,
`handleCancel` emits exactly the `cancel_translation` invocation and leaves
the state — in particular `isTranslating` — unchanged; the translating state
survives any further sequence of cancel clicks and non-final chunks, and ends
precisely when a chunk with `is_last = true` is processed. -/
theorem C5_cancel_semantics (s : AppState) (t : List MainEv)
    (hrun : s.isTranslating = true)
    (ht : ∀ e ∈ t, e = MainEv.cancelClick ∨
      ∃ c, e = MainEv.deliverChunk c ∧ c.is_last = false) :
    (∀ s' : AppState, s'.isTranslating = false → handleCancel s' = ([], s'))
    ∧ handleCancel s = ([Action.invokeCancel], s)
    ∧ (runMain s t).2.isTranslating = true
    ∧ ∀ frag : String,
        (onTranslationEvent s (Chunk.mk frag true)).2.isTranslating = false := by
  refine ⟨?_, ?_, ?_, ?_⟩
  · intro s' hs'; simp [handleCancel, hs']
  · simp [handleCancel, hrun]
  · exact runMain_keeps_translating t s hrun ht
  · intro frag
    simp [onTranslationEvent, resetUnloadTimer]

/-- C5 witness: the statement evaluated at `busyState` and a concrete run. -/
theorem C5_witness :
    (∀ s' : AppState, s'.isTranslating = false → handleCancel s' = ([], s'))
    ∧ handleCancel busyState = ([Action.invokeCancel], busyState)
    ∧ (runMain busyState [MainEv.cancelClick,
        MainEv.deliverChunk (Chunk.mk "He" false), MainEv.cancelClick,
        MainEv.deliverChunk (Chunk.mk "llo" false)]).2.isTranslating = true
    ∧ ∀ frag : String,
        (onTranslationEvent busyState (Chunk.mk frag true)).2.isTranslating
          = false :=
  C5_cancel_semantics busyState _ (by decide)
    (by
      intro e he
      simp only [List.mem_cons, List.not_mem_nil, or_false] at he
      rcases he with h | h | h | h <;> subst h <;>
        first
          | exact Or.inl rfl
          | exact Or.inr ⟨_, rfl, rfl⟩)

/-! ### C8 -/

/-- C8: a submission whose input text trims to the empty string is a complete
no-op on both surfaces: no `translate` invocation is performed, no timer is
touched and the state is returned unchanged (`handleTranslate` in the main
window, `translateText` in the popup). -/
theorem C8_empty_input_noop (s : AppState) (ps : PopupState)
    (stxt src tgt model : String) (r r2 : Except String Unit)
    (hs : jsTrim s.inputText = "") (ht : jsTrim stxt = "") :
    handleTranslate s r = ([], s)
    ∧ translateText ps stxt src tgt model r2 = ([], ps) := by
  constructor
  · simp [handleTranslate, hs]
  · simp [translateText, ht]

/-- C8 witness: whitespace-only input on both surfaces. -/
theorem C8_witness :
    handleTranslate { idleState with inputText := "   " } (Except.ok ())
        = ([], { idleState with inputText := "   " })
    ∧ translateText popupStart "  " "English" "Japanese" "balanced"
        (Except.ok ()) = ([], popupStart) :=
  C8_empty_input_noop { idleState with inputText := "   " } popupStart
    "  " "English" "Japanese" "balanced" (Except.ok ()) (Except.ok ())
    (by decide) (by decide)

/-! ### C9 -/

/-- C9: whenever the main window's theme value changes, its theme effect
publishes exactly that value on the `theme-changed` topic, and the popup's
subscribed handler overwrites its own theme with the delivered payload —
whatever it held before — so after delivery both surfaces hold the same
value (last-writer-wins). -/
theorem C9_theme_propagation (t : String) (ps : PopupState) :
    themeEffect t = [Action.emitThemeChanged t]
    ∧ (onThemeChangedPopup ps t).theme = t := by
  exact ⟨rfl, rfl⟩

/-! ### C10 -/

/-- C10 counterexample: a Ctrl+wheel event with `deltaY = 0` reaches the
popup's handler (the code only checks `ctrlKey`), and `Math.sign(0) = 0`
makes its step change the font size by 0, not by exactly 2: from size 20 the
popup stays at 20. (The main window's handler adds 2 in this case, so the
two surfaces also disagree here.) -/
theorem C10_counterexample :
    popupHandleWheel 20 0 = 20
    ∧ popupWheelRaw 20 0 - 20 ≠ 2
    ∧ popupWheelRaw 20 0 - 20 ≠ -2
    ∧ mainWheelRaw 20 0 - 20 = 2 := by
  decide

/-- C10 amended: under every Ctrl+wheel event the resulting font size is
clamped into [12, 72] in the main window and [10, 48] in the popup; the main
window's step always moves by exactly 2 before clamping, and the popup's step
moves by exactly 2 before clamping whenever `deltaY ≠ 0` (a `deltaY = 0`
event leaves the popup's size unchanged). -/
theorem C10_amended (prev deltaY : Int) (h : deltaY ≠ 0) :
    (12 ≤ mainHandleWheel prev deltaY ∧ mainHandleWheel prev deltaY ≤ 72)
    ∧ (10 ≤ popupHandleWheel prev deltaY ∧ popupHandleWheel prev deltaY ≤ 48)
    ∧ (mainWheelRaw prev deltaY - prev = 2 ∨ mainWheelRaw prev deltaY - prev = -2)
    ∧ (popupWheelRaw prev deltaY - prev = 2
        ∨ popupWheelRaw prev deltaY - prev = -2) := by
  have hsign : Int.sign deltaY = 1 ∨ Int.sign deltaY = -1 := by
    rcases lt_trichotomy deltaY 0 with h1 | h1 | h1
    · exact Or.inr (Int.sign_eq_neg_one_of_neg h1)
    · exact absurd h1 h
    · exact Or.inl (Int.sign_eq_one_of_pos h1)
  refine ⟨?_, ?_, ?_, ?_⟩
  · unfold mainHandleWheel mainWheelRaw
    constructor <;> simp [min_def, max_def] <;> split_ifs <;> omega
  · unfold popupHandleWheel popupWheelRaw
    rcases hsign with hs | hs <;> rw [hs] <;>
      constructor <;> simp [min_def, max_def] <;> split_ifs <;> omega
  · unfold mainWheelRaw
    split_ifs <;> omega
  · unfold popupWheelRaw
    rcases hsign with hs | hs <;> rw [hs] <;> omega

/-- C10 witness: the amended statement at size 100 (out of range) and a
downward wheel tick. -/
theorem C10_witness :
    (12 ≤ mainHandleWheel 100 3 ∧ mainHandleWheel 100 3 ≤ 72)
    ∧ (10 ≤ popupHandleWheel 100 3 ∧ popupHandleWheel 100 3 ≤ 48)
    ∧ (mainWheelRaw 100 3 - 100 = 2 ∨ mainWheelRaw 100 3 - 100 = -2)
    ∧ (popupWheelRaw 100 3 - 100 = 2 ∨ popupWheelRaw 100 3 - 100 = -2) :=
  C10_amended 100 3 (by decide)

end Spark

namespace Spark

/-! ### C6 -/

/-- C6 counterexample: an empty final chunk does not always leave the
displayed text unchanged: processed while the accumulated text is still the
placeholder (no output yet — exactly a cancellation before the first
fragment), the `is_last` branch replaces the placeholder with the fallback
failure message. -/
theorem C6_counterexample :
    (onTranslationEvent busyState (Chunk.mk "" true)).2.translatedText
      = translationFailedMessage
    ∧ translationFailedMessage ≠ busyState.translatedText := by
  decide

/-- C6 amended: an empty fragment leaves the accumulated text unchanged and —
when not final — changes nothing at all; an empty final chunk ends the
translating state, re-arms the idle-unload timer and keeps the already
rendered output, provided that output is not still the placeholder (if it
is, the main window substitutes the fallback failure message). The popup's
handler has no placeholder logic: an empty chunk never alters its shown
translation, and a final one only clears `loading`. -/
theorem C6_empty_chunk_frame (s : AppState) (ps : PopupState)
    (hne : s.translatedText ≠ translatingPlaceholder) :
    onTranslationEvent s (Chunk.mk "" false) = ([], s)
    ∧ (onTranslationEvent s (Chunk.mk "" true)).2 =
        { s with isTranslating := false, unloadTimer := some 30000 }
    ∧ onTranslationEventPopup ps (Chunk.mk "" false) = ps
    ∧ onTranslationEventPopup ps (Chunk.mk "" true) =
        { ps with loading := false } := by
  refine ⟨?_, ?_, ?_, ?_⟩
  · simp [onTranslationEvent, chunkText]
  · simp [onTranslationEvent, chunkText, resetUnloadTimer, hne]
  · simp [onTranslationEventPopup]
  · simp [onTranslationEventPopup]

/-- C6 witness: the amended statement at a state with rendered output. -/
theorem C6_witness :
    onTranslationEvent { busyState with translatedText := "Partial" }
        (Chunk.mk "" false)
      = ([], { busyState with translatedText := "Partial" })
    ∧ (onTranslationEvent { busyState with translatedText := "Partial" }
        (Chunk.mk "" true)).2 =
        { busyState with translatedText := "Partial",
                         isTranslating := false, unloadTimer := some 30000 }
    ∧ onTranslationEventPopup popupStart (Chunk.mk "" false) = popupStart
    ∧ onTranslationEventPopup popupStart (Chunk.mk "" true) =
        { popupStart with loading := false } :=
  C6_empty_chunk_frame { busyState with translatedText := "Partial" }
    popupStart (by decide)

end Spark

namespace Spark

/-! ### C7 -/

/-- Helper for C7: `cycleMode` lands in the fixed mode set from any starting
string (an unknown mode has `indexOf = -1`, so the cycle restarts at
`"nano"`). -/
theorem cycleMode_mem (m : String) : cycleMode m ∈ modes := by
  by_cases h1 : m = "nano"
  · subst h1; decide
  by_cases h2 : m = "light"
  · subst h2; decide
  by_cases h3 : m = "balanced"
  · subst h3; decide
  by_cases h4 : m = "high"
  · subst h4; decide
  have hidx : jsIndexOf modes m = -1 := by
    simp [jsIndexOf, modes, Ne.symm h1, Ne.symm h2, Ne.symm h3, Ne.symm h4]
  have hn : cycleMode m = "nano" := by
    simp only [cycleMode]
    rw [hidx]
    decide
  rw [hn]; decide

/-- Helper for C7: every way the `modelId` cell is written produces a member
of the fixed mode set. -/
theorem modelIdStep_mem (m : String) (e : ModelMenuEv) :
    modelIdStep m e ∈ modes := by
  cases e with
  | cycle => exact cycleMode_mem m
  | select i =>
    simp only [modelIdStep]
    revert i; decide

/-- Helper for C7: any sequence of mode writes starting in the set stays in
the set. -/
theorem foldl_modelIdStep_mem (evs : List ModelMenuEv) :
    ∀ m : String, m ∈ modes → evs.foldl modelIdStep m ∈ modes := by
  induction evs with
  | nil => intro m hm; exact hm
  | cons e rest ih =>
    intro m _
    exact ih (modelIdStep m e) (modelIdStep_mem m e)

/-- C7: the selected model identifier is always a member of
`{nano, light, balanced, high}`: the popup's initializer validates the stored
value against the set (falling back to `"balanced"`, which is also the main
window's literal initial value); `cycleMode` maps each member to the next
member cyclically and lands in the set from any string; every sequence of
menu selections and cycles starting from any restored initial value stays in
the set; and the `translate` invocations pass exactly the current `modelId`
(main window) respectively the freshly cycled mode, a member of the set
(popup). -/
theorem C7_model_id_in_fixed_set :
    (∀ saved : Option String, initPopupModelId saved ∈ modes)
    ∧ (cycleMode "nano" = "light" ∧ cycleMode "light" = "balanced"
        ∧ cycleMode "balanced" = "high" ∧ cycleMode "high" = "nano")
    ∧ (∀ m : String, cycleMode m ∈ modes)
    ∧ (∀ (saved : Option String) (evs : List ModelMenuEv),
        evs.foldl modelIdStep (initPopupModelId saved) ∈ modes)
    ∧ (∀ (s : AppState) (r : Except String Unit),
        ((handleTranslate s r).1.all fun a =>
          match a with
          | Action.invokeTranslate _ _ _ mid => mid == s.modelId
          | _ => true) = true)
    ∧ (∀ (ps : PopupState) (r : Except String Unit),
        ((popupCycleMode ps r).1.all fun a =>
          match a with
          | Action.invokeTranslate _ _ _ mid => modes.contains mid
          | _ => true) = true) := by
  refine ⟨?_, by decide, cycleMode_mem, ?_, ?_, ?_⟩
  · intro saved
    cases saved with
    | none => decide
    | some v =>
      simp only [initPopupModelId]
      split_ifs with h
      · exact h.2
      · decide
  · intro saved evs
    exact foldl_modelIdStep_mem evs _ (by
      cases saved with
      | none => decide
      | some v =>
        simp only [initPopupModelId]
        split_ifs with h
        · exact h.2
        · decide)
  · intro s r
    by_cases hin : jsTrim s.inputText = ""
    · simp [handleTranslate, hin]
    · cases r <;>
        simp [handleTranslate, hin, resetUnloadTimer]
  · intro ps r
    by_cases htext : ps.text = ""
    · simp [popupCycleMode, htext]
    · by_cases htrim : jsTrim ps.text = ""
      · simp [popupCycleMode, htext, translateText, htrim]
      · cases r <;> simp [popupCycleMode, htext, translateText, htrim] <;>
          exact cycleMode_mem ps.modelId

end Spark

namespace Spark

/-! ### C2 -/

/-- Helper for C2: from a state with no pending timeout, a run containing no
session-ending event (no final chunk, no failed submission) never invokes
`unload_model` and leaves no timeout pending. -/
theorem runMain_no_unload (t : List MainEv) :
    ∀ s : AppState, s.unloadTimer = none →
    (∀ e ∈ t, sessionEnds e = false) →
    Action.invokeUnload ∉ (runMain s t).1
    ∧ (runMain s t).2.unloadTimer = none := by
  induction t with
  | nil => intro s hp _; simp [runMain, hp]
  | cons e rest ih =>
    intro s hp ht
    have he : sessionEnds e = false := ht e (List.mem_cons_self e rest)
    have hrest : ∀ e' ∈ rest, sessionEnds e' = false :=
      fun e' h' => ht e' (List.mem_cons_of_mem e h')
    have hstep : Action.invokeUnload ∉ (mainStep s e).1
        ∧ (mainStep s e).2.unloadTimer = none := by
      cases e with
      | deliverChunk c =>
        have hc : c.is_last = false := he
        simp [mainStep, onTranslationEvent, hc, hp]
      | submit r =>
        cases r with
        | error err => simp [sessionEnds] at he
        | ok u =>
          by_cases hin : jsTrim s.inputText = "" <;>
            simp [mainStep, handleTranslate, hin, hp]
      | cancelClick =>
        by_cases hb : s.isTranslating <;> simp [mainStep, handleCancel, hb, hp]
      | setInput txt => simp [mainStep, hp]
      | elapse d => simp [mainStep, hp]
    have hih := ih (mainStep s e).2 hstep.2 hrest
    constructor
    · simp only [runMain, List.mem_append]
      intro hc
      rcases hc with hc | hc
      · exact hstep.1 hc
      · exact hih.1 hc
    · simp only [runMain]
      exact hih.2
end Spark

namespace Spark

/-- C2: after a session ends — a final chunk arrives, or a (non-empty)
submission's `translate` invocation rejects — the idle-unload timeout is
(re)armed with exactly 30000 ms; a pending timeout whose delay elapses fires
exactly the `unload_model` invocation and becomes non-pending (single-shot);
a new (non-empty) submission clears any pending timeout; and from that point
no `unload_model` invocation can occur during any run that contains no
further session-ending event. -/
theorem C2_idle_unload_timer (s s' : AppState) (c : Chunk) (err : String)
    (rem d : Nat) (t : List MainEv)
    (hin : jsTrim s.inputText ≠ "")
    (hin' : jsTrim s'.inputText ≠ "")
    (hc : c.is_last = true)
    (hrem : s'.unloadTimer = some rem) (hd : rem ≤ d)
    (ht : ∀ e ∈ t, sessionEnds e = false) :
    ((mainStep s' (MainEv.deliverChunk c)).2.unloadTimer = some 30000
      ∧ Action.armUnloadTimer 30000 ∈ (mainStep s' (MainEv.deliverChunk c)).1)
    ∧ (mainStep s' (MainEv.submit (Except.error err))).2.unloadTimer
        = some 30000
    ∧ mainStep s' (MainEv.elapse d)
        = ([Action.invokeUnload], { s' with unloadTimer := none })
    ∧ (mainStep s (MainEv.submit (Except.ok ()))).2.unloadTimer = none
    ∧ Action.invokeUnload
        ∉ (runMain (mainStep s (MainEv.submit (Except.ok ()))).2 t).1 := by
  refine ⟨⟨?_, ?_⟩, ?_, ?_, ?_, ?_⟩
  · simp [mainStep, onTranslationEvent, hc, resetUnloadTimer]
  · simp [mainStep, onTranslationEvent, hc, resetUnloadTimer]
  · simp [mainStep, handleTranslate, hin', resetUnloadTimer]
  · simp [mainStep, hrem, hd]
  · simp [mainStep, handleTranslate, hin]
  · exact (runMain_no_unload t _
      (by simp [mainStep, handleTranslate, hin]) ht).1

/-- C2 witness: the statement evaluated on concrete states, a final chunk, a
failing submission, a timer expiry and a session-end-free run. -/
theorem C2_witness :
    ((mainStep { idleState with unloadTimer := some 30000 }
        (MainEv.deliverChunk (Chunk.mk "" true))).2.unloadTimer = some 30000
      ∧ Action.armUnloadTimer 30000 ∈
          (mainStep { idleState with unloadTimer := some 30000 }
            (MainEv.deliverChunk (Chunk.mk "" true))).1)
    ∧ (mainStep { idleState with unloadTimer := some 30000 }
        (MainEv.submit (Except.error "boom"))).2.unloadTimer = some 30000
    ∧ mainStep { idleState with unloadTimer := some 30000 }
        (MainEv.elapse 30000)
        = ([Action.invokeUnload],
            { { idleState with unloadTimer := some 30000 } with
                unloadTimer := none })
    ∧ (mainStep idleState (MainEv.submit (Except.ok ()))).2.unloadTimer = none
    ∧ Action.invokeUnload
        ∉ (runMain (mainStep idleState (MainEv.submit (Except.ok ()))).2
            [MainEv.elapse 90000, MainEv.cancelClick,
              MainEv.deliverChunk (Chunk.mk "Hi" false),
              MainEv.setInput "next", MainEv.elapse 90000]).1 :=
  C2_idle_unload_timer idleState { idleState with unloadTimer := some 30000 }
    (Chunk.mk "" true) "boom" 30000 30000
    [MainEv.elapse 90000, MainEv.cancelClick,
      MainEv.deliverChunk (Chunk.mk "Hi" false),
      MainEv.setInput "next", MainEv.elapse 90000]
    (by decide) (by decide) rfl rfl (Nat.le_refl 30000)
    (by
      intro e he
      simp only [List.mem_cons, List.not_mem_nil, or_false] at he
      rcases he with h | h | h | h | h <;> subst h <;> rfl)

end Spark

namespace Spark

/-! ### C1 -/

theorem concatFragsFrom_cons (A : String) (c : Chunk) (cs : List Chunk) :
    concatFragsFrom A (c :: cs) = concatFragsFrom (A ++ c.chunk) cs := rfl

theorem processChunks_append (s : AppState) (l1 l2 : List Chunk) :
    processChunks s (l1 ++ l2) = processChunks (processChunks s l1) l2 := by
  simp [processChunks, List.foldl_append]

/-- Helper for C1: non-final chunks only rewrite the displayed text, via
`chunkText`. -/
theorem processChunks_body (body : List Chunk) :
    ∀ s : AppState, (∀ c ∈ body, c.is_last = false) →
    processChunks s body =
      { s with translatedText := body.foldl chunkText s.translatedText } := by
  induction body with
  | nil => intro s _; rfl
  | cons c rest ih =>
    intro s hb
    have hc : c.is_last = false := hb c (List.mem_cons_self c rest)
    have h1 : (onTranslationEvent s c).2 =
        { s with translatedText := chunkText s.translatedText c } := by
      simp [onTranslationEvent, hc]
    have h2 : processChunks s (c :: rest) =
        processChunks (onTranslationEvent s c).2 rest := rfl
    rw [h2, h1, ih _ (fun c' h' => hb c' (List.mem_cons_of_mem c h'))]
    rfl

/-- Helper for C1: running the text evolution of the main window's chunk
handler over non-final chunks yields the fragment concatenation, as long as
no partial concatenation collides with the placeholder (the placeholder is
displayed for as long as the concatenation is still empty). -/
theorem chunkText_run (body : List Chunk) :
    ∀ A : String,
    (∀ p ∈ body.inits, concatFragsFrom A p ≠ translatingPlaceholder) →
    body.foldl chunkText (if A = "" then translatingPlaceholder else A)
      = if concatFragsFrom A body = "" then translatingPlaceholder
        else concatFragsFrom A body := by
  induction body with
  | nil => intro A _; rfl
  | cons c rest ih =>
    intro A hph
    have hApl : A ≠ translatingPlaceholder := by
      have h0 := hph [] (nil_mem_inits (c :: rest))
      simpa [concatFragsFrom] using h0
    by_cases hc : c.chunk = ""
    · have hAc : A ++ c.chunk = A := by rw [hc, String.append_empty]
      have hstep : chunkText (if A = "" then translatingPlaceholder else A) c
          = (if A = "" then translatingPlaceholder else A) := by
        simp [chunkText, hc]
      have hcond : ∀ p ∈ rest.inits,
          concatFragsFrom A p ≠ translatingPlaceholder := by
        intro p hp
        have h0 := hph (c :: p) (cons_mem_inits c p rest hp)
        rwa [concatFragsFrom_cons, hAc] at h0
      rw [List.foldl_cons, hstep, concatFragsFrom_cons, hAc]
      exact ih A hcond
    · by_cases hA : A = ""
      · subst hA
        have hec : ("" : String) ++ c.chunk = c.chunk := String.empty_append _
        have hcond : ∀ p ∈ rest.inits,
            concatFragsFrom c.chunk p ≠ translatingPlaceholder := by
          intro p hp
          have h0 := hph (c :: p) (cons_mem_inits c p rest hp)
          rwa [concatFragsFrom_cons, hec] at h0
        have hstep :
            chunkText (if ("" : String) = "" then translatingPlaceholder
              else "") c = c.chunk := by
          simp [chunkText, hc]
        rw [List.foldl_cons, hstep, concatFragsFrom_cons, hec]
        have h1 := ih c.chunk hcond
        rwa [if_neg hc] at h1
      · have hstep : chunkText (if A = "" then translatingPlaceholder else A) c
            = A ++ c.chunk := by
          simp [chunkText, hc, hA, hApl]
        have hane : A ++ c.chunk ≠ "" := append_ne_empty_left A c.chunk hA
        have hcond : ∀ p ∈ rest.inits,
            concatFragsFrom (A ++ c.chunk) p ≠ translatingPlaceholder := by
          intro p hp
          have h0 := hph (c :: p) (cons_mem_inits c p rest hp)
          rwa [concatFragsFrom_cons] at h0
        rw [List.foldl_cons, hstep, concatFragsFrom_cons]
        have h1 := ih (A ++ c.chunk) hcond
        rwa [if_neg hane] at h1

end Spark

namespace Spark

/-- C1 counterexample: a session that delivers only an empty final chunk (a
cancellation before any output) displays the fallback failure message, not
the (empty) concatenation of its non-empty fragments. -/
theorem C1_counterexample :
    (processChunks busyState [Chunk.mk "" true]).translatedText
      ≠ concatFrags [Chunk.mk "" true] := by
  decide

/-- C1 amended: processing a session's chunks in delivery order from the
placeholder state displays exactly the concatenation of the (non-empty)
fragments, provided the session produced any text at all and no partial
concatenation collides with the placeholder string itself; when every
fragment is empty, the final chunk replaces the still-displayed placeholder
with the fallback failure message instead (see the counterexample). -/
theorem C1_stream_concat (body : List Chunk) (lastChunk : Chunk) (s : AppState)
    (hs : s.translatedText = translatingPlaceholder)
    (hbody : ∀ ch ∈ body, ch.is_last = false)
    (hlast : lastChunk.is_last = true)
    (hne : concatFrags (body ++ [lastChunk]) ≠ "")
    (hph : ∀ p ∈ (body ++ [lastChunk]).inits,
      concatFrags p ≠ translatingPlaceholder) :
    (processChunks s (body ++ [lastChunk])).translatedText
      = concatFrags (body ++ [lastChunk]) := by
  have hA_decomp : concatFrags (body ++ [lastChunk])
      = concatFrags body ++ lastChunk.chunk := by
    simp [concatFrags, concatFragsFrom, List.foldl_append]
  have hfull_ne_pl : concatFrags (body ++ [lastChunk])
      ≠ translatingPlaceholder :=
    hph (body ++ [lastChunk]) (self_mem_inits (body ++ [lastChunk]))
  have hbodyrun : processChunks s body =
      { s with translatedText :=
          if concatFrags body = "" then translatingPlaceholder
          else concatFrags body } := by
    rw [processChunks_body body s hbody, hs]
    have h := chunkText_run body ""
      (fun p hp => hph p (left_mem_inits_append p body [lastChunk] hp))
    simpa [concatFrags] using h
  have ht1 : chunkText
      (if concatFrags body = "" then translatingPlaceholder
        else concatFrags body) lastChunk
      = concatFrags body ++ lastChunk.chunk := by
    by_cases hAb : concatFrags body = ""
    · have hcne : lastChunk.chunk ≠ "" := by
        intro h0
        apply hne
        rw [hA_decomp, hAb, h0, String.append_empty]
      simp [chunkText, hAb, hcne, String.empty_append]
    · have hApl : concatFrags body ≠ translatingPlaceholder :=
        hph body (left_mem_inits_append body body [lastChunk]
          (self_mem_inits body))
      by_cases hc : lastChunk.chunk = ""
      · simp [chunkText, hc, hAb, String.append_empty]
      · simp [chunkText, hc, hAb, hApl]
  have hstep2 : processChunks s (body ++ [lastChunk])
      = (onTranslationEvent (processChunks s body) lastChunk).2 := by
    rw [processChunks_append]
    rfl
  rw [hstep2, hbodyrun]
  simp only [onTranslationEvent, hlast, resetUnloadTimer]
  rw [ht1]
  rw [← hA_decomp] at *
  simp [if_neg hfull_ne_pl]

/-- C1 witness: the amended statement at a concrete two-fragment session
ending in an empty final chunk. -/
theorem C1_witness :
    (processChunks busyState
        [Chunk.mk "Hel" false, Chunk.mk "lo" false, Chunk.mk "" true]
      ).translatedText
      = concatFrags
          [Chunk.mk "Hel" false, Chunk.mk "lo" false, Chunk.mk "" true] :=
  C1_stream_concat [Chunk.mk "Hel" false, Chunk.mk "lo" false]
    (Chunk.mk "" true) busyState (by decide) (by decide) rfl (by decide)
    (by decide)

end Spark
